import Mathlib

/-!
Verification development for the book-aggregation subsystem of the EuRecomendo
backend (`backend/books/`): the Iterator-pattern aggregation code
(`iterators.py`), the API adapters (`adapters.py`) and the Book builder
(`builders.py`, `models.py`).

The Python code is shallowly embedded: dictionaries become structures with
`Option` fields for possibly-absent keys, raised exceptions become `Except`
values, and the stateful iterator classes become explicit state records with
step functions.  External API adapters are modelled as values of
`SourceAdapter`: a name together with a `search_by_query` function that either
returns a list of normalized records or fails (a raised exception inside the
adapter).
-/

/-- The normalized record shape produced by `BookAPIInterface` adapters
(`adapters.py`, docstring of `BookAPIInterface`): keys `title`, `authors`,
`isbn`, `publisher`, `published_date`, `description`, `cover_url`,
`page_count`, `categories`, `language`, `average_rating`, plus the
`_api_source` metadata key that `MultiSourceIterator._load_all_results` adds
(`apiSource = none` means the key is absent).  `Option` encodes absent keys /
`None` values; `average_rating` (a Python float) is modelled as a rational. -/
structure NormalizedRecord where
  title : String
  authors : List String
  isbn : Option String
  publisher : Option String
  publishedDate : Option String
  description : Option String
  coverUrl : Option String
  pageCount : Option Int
  categories : List String
  language : Option String
  averageRating : Option ℚ
  apiSource : Option String
deriving DecidableEq, Repr

/-- A `BookAPIInterface` adapter as seen by the iterators: its
`get_api_name()` and its `search_by_query(query, limit)` method, which either
returns a list of normalized records or raises (`Except.error`). -/
structure SourceAdapter where
  apiName : String
  searchByQuery : String → Nat → Except String (List NormalizedRecord)

/-- Decidable equality for `Except` results, used to evaluate concrete
scenarios. -/
instance exceptDecEq {ε α : Type} [DecidableEq ε] [DecidableEq α] :
    DecidableEq (Except ε α)
  | .error e, .error f =>
    if h : e = f then isTrue (by rw [h])
    else isFalse (by intro hc; cases hc; exact h rfl)
  | .error _, .ok _ => isFalse (by intro hc; cases hc)
  | .ok _, .error _ => isFalse (by intro hc; cases hc)
  | .ok a, .ok b =>
    if h : a = b then isTrue (by rw [h])
    else isFalse (by intro hc; cases hc; exact h rfl)

/-- Python truthiness of an optional string (`if s:`): present and non-empty. -/
def truthyStr : Option String → Bool
  | none => false
  | some s => s ≠ ""

/-- The non-empty isbn of a record, if any: `isbn = result.get('isbn')`
followed by the truthiness tests in `_load_all_results`. -/
def isbnKey (r : NormalizedRecord) : Option String :=
  match r.isbn with
  | none => none
  | some s => if s = "" then none else some s

/-- `result['_api_source'] = api_name` in `_load_all_results`. -/
def tagSource (apiName : String) (r : NormalizedRecord) : NormalizedRecord :=
  { r with apiSource := some apiName }

/-- Internal state of `MultiSourceIterator._load_all_results`: the
`_seen_isbns` set (as a list with membership) and the `_all_results` list. -/
structure AggState where
  seenIsbns : List String
  allResults : List NormalizedRecord

/-- The body of the `for result in results:` loop in
`MultiSourceIterator._load_all_results`: tag the record with its source, then
(optionally) deduplicate by truthy isbn, then append. -/
def processRecord (dedupe : Bool) (apiName : String) (st : AggState)
    (r0 : NormalizedRecord) : AggState :=
  let r := tagSource apiName r0
  if dedupe then
    match r.isbn with
    | some isbn =>
      if isbn ≠ "" ∧ isbn ∈ st.seenIsbns then
        st
      else
        { seenIsbns := if isbn ≠ "" then isbn :: st.seenIsbns else st.seenIsbns,
          allResults := st.allResults ++ [r] }
    | none => { st with allResults := st.allResults ++ [r] }
  else
    { st with allResults := st.allResults ++ [r] }

/-- The body of the `for adapter in self._adapters:` loop in
`MultiSourceIterator._load_all_results`: a raised exception inside
`adapter.search_by_query` is caught and the adapter skipped (`continue`). -/
def processAdapter (query : String) (limit : Nat) (dedupe : Bool)
    (st : AggState) (a : SourceAdapter) : AggState :=
  match a.searchByQuery query limit with
  | .error _ => st
  | .ok results => results.foldl (processRecord dedupe a.apiName) st

/-- `MultiSourceIterator._load_all_results`: the `_all_results` list after
processing every adapter in order, starting from empty `_seen_isbns` and
`_all_results`. -/
def MultiSourceIterator.load_all_results (adapters : List SourceAdapter)
    (query : String) (limit : Nat) (dedupe : Bool) : List NormalizedRecord :=
  (adapters.foldl (processAdapter query limit dedupe) ⟨[], []⟩).allResults

/-- Iteration state of a `MultiSourceIterator`: `_all_results` and
`_position`. -/
structure MultiSourceIterator where
  allResults : List NormalizedRecord
  position : Nat
deriving DecidableEq, Repr

/-- `MultiSourceIterator.__init__` (which calls `_load_all_results`). -/
def MultiSourceIterator.mk' (adapters : List SourceAdapter) (query : String)
    (limit : Nat) (dedupe : Bool) : MultiSourceIterator :=
  ⟨MultiSourceIterator.load_all_results adapters query limit dedupe, 0⟩

/-- `MultiSourceIterator.has_next`. -/
def MultiSourceIterator.has_next (it : MultiSourceIterator) : Bool :=
  it.position < it.allResults.length

/-- `MultiSourceIterator.__next__`: `none` models a raised `StopIteration`. -/
def MultiSourceIterator.next (it : MultiSourceIterator) :
    Option (NormalizedRecord × MultiSourceIterator) :=
  if h : it.position < it.allResults.length then
    some (it.allResults.get ⟨it.position, h⟩, { it with position := it.position + 1 })
  else
    none

/-- The fuel-bounded list of records produced by repeatedly calling
`MultiSourceIterator.__next__` until `StopIteration`. -/
def MultiSourceIterator.run : Nat → MultiSourceIterator → List NormalizedRecord
  | 0, _ => []
  | fuel + 1, it =>
    match it.next with
    | none => []
    | some (r, it') => r :: MultiSourceIterator.run fuel it'

/-- State of a `LazyAPIIterator` (`iterators.py`): `_current_page`,
`_position_in_page`, `_current_results`, `_exhausted`.  The adapter-and-query
pair is modelled by a `fetch` function: `fetch n` is the outcome of the
`adapter.search_by_query(query, limit=page_size)` call made while
`_current_page = n` in a run that starts from page 0.  `fetch` being a pure
function encodes a stable (deterministic) underlying source. -/
structure LazyState where
  currentPage : Nat
  positionInPage : Nat
  currentResults : List NormalizedRecord
  exhausted : Bool
deriving DecidableEq, Repr

/-- `LazyAPIIterator._load_next_page`: give up if `_current_page` already
reached `_max_pages`; otherwise fetch, treating a raised exception or an empty
result as exhaustion, and on success install the page, reset the in-page
position and advance `_current_page`. -/
def LazyState.load_next_page (fetch : Nat → Except String (List NormalizedRecord))
    (maxPages : Nat) (s : LazyState) : LazyState :=
  if maxPages ≤ s.currentPage then
    { s with exhausted := true }
  else
    match fetch s.currentPage with
    | .error _ => { s with exhausted := true }
    | .ok results =>
      if results.isEmpty then
        { s with exhausted := true }
      else
        { s with currentResults := results, positionInPage := 0,
                 currentPage := s.currentPage + 1 }

/-- `LazyAPIIterator.__init__`: zeroed state followed by the first
`_load_next_page` call. -/
def LazyState.init (fetch : Nat → Except String (List NormalizedRecord))
    (maxPages : Nat) : LazyState :=
  LazyState.load_next_page fetch maxPages ⟨0, 0, [], false⟩

/-- `LazyAPIIterator.has_next`: false when exhausted, otherwise whether the
in-page position is still inside the buffered page. -/
def LazyState.has_next (s : LazyState) : Bool :=
  if s.exhausted then false else s.positionInPage < s.currentResults.length

/-- `LazyAPIIterator.__next__`: `none` models a raised `StopIteration`.  On
success the buffered record at the current position is returned, the position
advanced, and — when the position thereby reaches the end of the buffered
page — `_load_next_page` is triggered. -/
def LazyState.next (fetch : Nat → Except String (List NormalizedRecord))
    (maxPages : Nat) (s : LazyState) : Option (NormalizedRecord × LazyState) :=
  if s.has_next then
    match s.currentResults.get? s.positionInPage with
    | none => none
    | some r =>
      let s' := { s with positionInPage := s.positionInPage + 1 }
      if s'.currentResults.length ≤ s'.positionInPage then
        some (r, s'.load_next_page fetch maxPages)
      else
        some (r, s')
  else
    none

/-- `LazyAPIIterator.reset`: restore `_current_page = 0`,
`_position_in_page = 0`, empty buffer, `_exhausted = False`, then re-trigger
the first fetch via `_load_next_page`. -/
def LazyState.reset (fetch : Nat → Except String (List NormalizedRecord))
    (maxPages : Nat) (s : LazyState) : LazyState :=
  LazyState.load_next_page fetch maxPages
    { s with currentPage := 0, positionInPage := 0, currentResults := [],
             exhausted := false }

/-- The fuel-bounded list of records produced by repeatedly calling
`LazyAPIIterator.__next__` until `StopIteration`. -/
def LazyState.run (fetch : Nat → Except String (List NormalizedRecord))
    (maxPages : Nat) : Nat → LazyState → List NormalizedRecord
  | 0, _ => []
  | fuel + 1, s =>
    match s.next fetch maxPages with
    | none => []
    | some (r, s') => r :: LazyState.run fetch maxPages fuel s'

/-- The states of a `LazyAPIIterator` reachable from construction through any
sequence of `__next__` and `reset` calls. -/
inductive LazyReachable (fetch : Nat → Except String (List NormalizedRecord))
    (maxPages : Nat) : LazyState → Prop
  | init : LazyReachable fetch maxPages (LazyState.init fetch maxPages)
  | step {s r s'} : LazyReachable fetch maxPages s →
      s.next fetch maxPages = some (r, s') → LazyReachable fetch maxPages s'
  | reset {s} : LazyReachable fetch maxPages s →
      LazyReachable fetch maxPages (s.reset fetch maxPages)

/-- The record content without the `_api_source` metadata key. -/
def stripTag (r : NormalizedRecord) : NormalizedRecord :=
  { r with apiSource := none }

/-- Two records do not share a non-empty isbn. -/
def noSharedIsbn (r s : NormalizedRecord) : Prop :=
  ∀ k, isbnKey r = some k → isbnKey s ≠ some k

/-- What a single adapter contributes before deduplication: its
`search_by_query` results tagged with its name, or nothing when the search
raised. -/
def adapterTagged (a : SourceAdapter) (query : String) (limit : Nat) :
    List NormalizedRecord :=
  match a.searchByQuery query limit with
  | .error _ => []
  | .ok rs => rs.map (tagSource a.apiName)

/-- Number of records in a list whose isbn is empty or absent. -/
def noKeyCount (l : List NormalizedRecord) : Nat :=
  l.countP (fun r => (isbnKey r).isNone)

/-- Per-adapter count of returned records whose isbn is empty or absent
(zero for a failing adapter). -/
def adapterNoKeyCount (a : SourceAdapter) (query : String) (limit : Nat) : Nat :=
  match a.searchByQuery query limit with
  | .error _ => 0
  | .ok rs => rs.countP (fun r => (isbnKey r).isNone)

/-- Whether an adapter's `search_by_query` returns without raising. -/
def searchOk (a : SourceAdapter) (query : String) (limit : Nat) : Bool :=
  match a.searchByQuery query limit with
  | .error _ => false
  | .ok _ => true

/-- Aggregation invariant: the output so far has pairwise distinct non-empty
isbns, and each of those isbns has been recorded in `_seen_isbns`. -/
def AggInv (st : AggState) : Prop :=
  st.allResults.Pairwise noSharedIsbn ∧
  ∀ r ∈ st.allResults, ∀ k, isbnKey r = some k → k ∈ st.seenIsbns

/-- Provenance of an aggregated record: some adapter in the list returned it
(without raising), and the aggregator only added the `_api_source` tag. -/
def fromAdapters (adapters : List SourceAdapter) (query : String) (limit : Nat)
    (r : NormalizedRecord) : Prop :=
  ∃ a ∈ adapters, ∃ rs, a.searchByQuery query limit = .ok rs ∧
    ∃ r0 ∈ rs, r = tagSource a.apiName r0

/-- State invariant of a `LazyAPIIterator`: when exhausted the in-page
position sits exactly at the end of the buffered page, otherwise strictly
inside it; the page index never exceeds `_max_pages`. -/
def LazyInv (maxPages : Nat) (s : LazyState) : Prop :=
  (s.exhausted = true → s.positionInPage = s.currentResults.length) ∧
  (s.exhausted = false → s.positionInPage < s.currentResults.length) ∧
  s.currentPage ≤ maxPages

/-- A minimal normalized record with the given title and isbn (all other
fields as an adapter would leave them when the raw payload is sparse). -/
def mkRec (title : String) (isbn : Option String) : NormalizedRecord :=
  { title := title, authors := [], isbn := isbn, publisher := none,
    publishedDate := none, description := none, coverUrl := none,
    pageCount := none, categories := [], language := none,
    averageRating := none, apiSource := none }

/-- Scenario record of source A with isbn 111. -/
def recA111 : NormalizedRecord := mkRec "a1" (some "111")

/-- Scenario record of source A with isbn 222. -/
def recA222 : NormalizedRecord := mkRec "a2" (some "222")

/-- Scenario record of source B with isbn 222 (duplicate of A's). -/
def recB222 : NormalizedRecord := mkRec "b2" (some "222")

/-- Scenario record of source B with isbn 333. -/
def recB333 : NormalizedRecord := mkRec "b3" (some "333")

/-- Scenario source A returning isbns 111 and 222. -/
def adapterA : SourceAdapter := ⟨"A", fun _ _ => .ok [recA111, recA222]⟩

/-- Scenario source B returning isbns 222 and 333. -/
def adapterB : SourceAdapter := ⟨"B", fun _ _ => .ok [recB222, recB333]⟩

/-- Two distinct records sharing isbn 111, returned by one adapter. -/
def recX111 : NormalizedRecord := mkRec "x" (some "111")

/-- Second record with isbn 111 but different title. -/
def recY111 : NormalizedRecord := mkRec "y" (some "111")

/-- An adapter returning two distinct records with the same isbn. -/
def adapterDup : SourceAdapter := ⟨"A", fun _ _ => .ok [recX111, recY111]⟩

/-- An adapter whose search raises on every call. -/
def adapterBoom : SourceAdapter := ⟨"B", fun _ _ => .error "boom"⟩

/-- A first page of five records. -/
def page5 : List NormalizedRecord :=
  [mkRec "b1" none, mkRec "b2" none, mkRec "b3" none, mkRec "b4" none,
   mkRec "b5" none]

/-- A source that answers every page request with the same five records. -/
def fetch5 : Nat → Except String (List NormalizedRecord) :=
  fun _ => .ok page5

/-- The `Book` Django model of `backend/books/models.py`: its only
data fields are `title`, `author`, `isbn`, `description` and `categories`
(plus auto primary key and timestamps, irrelevant here).  `isbn` and
`description` are blank-allowed `CharField`/`TextField`s whose Django default
is the empty string when the kwarg is absent. -/
structure Book where
  title : String
  author : String
  isbn : String
  description : String
  categories : List String
deriving DecidableEq, Repr

/-- The `_book_data` dictionary of `BookBuilder` (`builders.py`): an `Option`
field is `none` when the corresponding key is absent from the dict.
`categories`, `language` and `source` are always present because `reset`
installs them. -/
structure BookData where
  categories : List String
  language : String
  source : String
  title : Option String
  author : Option String
  genre : Option String
  isbn : Option String
  publisher : Option String
  publicationYear : Option Int
  description : Option String
  coverUrl : Option (Option String)
  pageCount : Option Int
  averageRating : Option ℚ
deriving DecidableEq, Repr

/-- `BookBuilder.reset`: the fresh `_book_data` dict. -/
def BookBuilder.resetData : BookData :=
  { categories := [], language := "pt-BR", source := "manual", title := none,
    author := none, genre := none, isbn := none, publisher := none,
    publicationYear := none, description := none, coverUrl := none,
    pageCount := none, averageRating := none }

/-- Python `str.isdigit` filtering used by `set_isbn` (ASCII digits; Python
also accepts some unicode digits, which does not arise for ISBN strings). -/
def pyDigits (s : String) : String :=
  ⟨s.data.filter Char.isDigit⟩

/-- Python `str.strip()`: remove whitespace from both ends (implemented on
the character list so that it evaluates by kernel reduction). -/
def pyStrip (s : String) : String :=
  ⟨((s.data.dropWhile Char.isWhitespace).reverse.dropWhile
      Char.isWhitespace).reverse⟩

/-- Python `str.startswith`. -/
def pyStartsWith (s p : String) : Bool :=
  p.data.isPrefixOf s.data

/-- Digit-string to number, `none` when empty or not all digits. -/
def digitsToNat (cs : List Char) : Option Nat :=
  if cs ≠ [] ∧ cs.all Char.isDigit then
    some (cs.foldl (fun n c => 10 * n + (c.toNat - 48)) 0)
  else
    none

/-- Python `str[:n]`. -/
def pyTake (s : String) (n : Nat) : String :=
  ⟨s.data.take n⟩

/-- `BookBuilder.set_title`: rejects empty/whitespace-only or over-long
titles, stores the stripped title. -/
def BookBuilder.set_title (d : BookData) (title : String) :
    Except String BookData :=
  if title = "" ∨ pyStrip title = "" then
    .error "Título não pode ser vazio"
  else if 255 < title.length then
    .error "Título não pode exceder 255 caracteres"
  else
    .ok { d with title := some (pyStrip title) }

/-- `BookBuilder.set_author`. -/
def BookBuilder.set_author (d : BookData) (author : String) :
    Except String BookData :=
  if author = "" ∨ pyStrip author = "" then
    .error "Autor não pode ser vazio"
  else if 255 < author.length then
    .error "Autor não pode exceder 255 caracteres"
  else
    .ok { d with author := some (pyStrip author) }

/-- `BookBuilder.set_genre`. -/
def BookBuilder.set_genre (d : BookData) (genre : String) :
    Except String BookData :=
  if genre ≠ "" ∧ 100 < genre.length then
    .error "Gênero não pode exceder 100 caracteres"
  else
    .ok { d with genre := some (if genre ≠ "" then pyStrip genre else "") }

/-- `BookBuilder.set_isbn`: a falsy isbn is a no-op; otherwise keeps only the
digits and requires 10 or 13 of them. -/
def BookBuilder.set_isbn (d : BookData) (isbn : String) :
    Except String BookData :=
  if isbn = "" then
    .ok d
  else
    let cleaned := pyDigits isbn
    if cleaned.length = 10 ∨ cleaned.length = 13 then
      .ok { d with isbn := some cleaned }
    else
      .error "ISBN inválido. Deve ter 10 ou 13 dígitos."

/-- `BookBuilder.set_publisher`. -/
def BookBuilder.set_publisher (d : BookData) (publisher : String) :
    Except String BookData :=
  if publisher ≠ "" ∧ 255 < publisher.length then
    .error "Editora não pode exceder 255 caracteres"
  else
    .ok { d with publisher := some (if publisher ≠ "" then pyStrip publisher else "") }

/-- `BookBuilder.set_publication_year` for an integer argument (the `None`
and non-`int` guards live at the call sites). -/
def BookBuilder.set_publication_year (d : BookData) (year : Int) :
    Except String BookData :=
  if year < 1000 ∨ 2030 < year then
    .error "Ano de publicação inválido"
  else
    .ok { d with publicationYear := some year }

/-- `BookBuilder.set_description` (never raises). -/
def BookBuilder.set_description (d : BookData) (description : String) :
    BookData :=
  { d with description := some (if description ≠ "" then pyStrip description else "") }

/-- `BookBuilder.set_cover_url`: rejects non-http(s) URLs, stores `None` for
a falsy one. -/
def BookBuilder.set_cover_url (d : BookData) (url : String) :
    Except String BookData :=
  if url ≠ "" ∧ ¬(pyStartsWith url "http://" = true ∨ pyStartsWith url "https://" = true) then
    .error "URL da capa inválida"
  else
    .ok { d with coverUrl := some (if url ≠ "" then some url else none) }

/-- `BookBuilder.set_page_count` for an integer argument. -/
def BookBuilder.set_page_count (d : BookData) (pages : Int) :
    Except String BookData :=
  if pages ≤ 0 then
    .error "Número de páginas deve ser positivo"
  else
    .ok { d with pageCount := some pages }

/-- `BookBuilder.set_language`. -/
def BookBuilder.set_language (d : BookData) (language : String) :
    Except String BookData :=
  if language ≠ "" ∧ 10 < language.length then
    .error "Código de idioma não pode exceder 10 caracteres"
  else
    .ok { d with language := if language ≠ "" then language else "pt-BR" }

/-- `BookBuilder.add_category` (never raises; keeps the list duplicate-free
and ignores blanks). -/
def BookBuilder.add_category (d : BookData) (category : String) : BookData :=
  if category ≠ "" ∧ pyStrip category ≠ "" then
    if pyStrip category ∈ d.categories then d
    else { d with categories := d.categories ++ [pyStrip category] }
  else
    d

/-- Python `round(float(x), 2)` approximated on rationals (round half up at
two decimals; Python's binary-float round-half-even can differ on ties, and
no claim depends on the stored value). -/
def round2 (q : ℚ) : ℚ :=
  (⌊q * 100 + 1 / 2⌋ : ℚ) / 100

/-- `BookBuilder.set_average_rating` for a numeric argument. -/
def BookBuilder.set_average_rating (d : BookData) (rating : ℚ) :
    Except String BookData :=
  if rating < 0 ∨ 5 < rating then
    .error "Rating deve estar entre 0.0 e 5.0"
  else
    .ok { d with averageRating := some (round2 rating) }

/-- `BookBuilder.set_source`. -/
def BookBuilder.set_source (d : BookData) (source : String) :
    Except String BookData :=
  if source ≠ "" ∧ source ∉ ["manual", "google_books", "open_library"] then
    .error "Source inválido"
  else
    .ok { d with source := if source ≠ "" then source else "manual" }

/-- The keys of `_book_data` that are not fields of the `Book` model, in the
state `d`: Django's `Model.__init__` raises `TypeError` on any such leftover
keyword argument.  `language` and `source` are always present because
`reset` installs them, and `genre` and the rest are present when set. -/
def bookInvalidKwargs (d : BookData) : List String :=
  (if d.genre.isSome then ["genre"] else []) ++
  (if d.publisher.isSome then ["publisher"] else []) ++
  (if d.publicationYear.isSome then ["publication_year"] else []) ++
  (if d.coverUrl.isSome then ["cover_url"] else []) ++
  (if d.pageCount.isSome then ["page_count"] else []) ++
  (if d.averageRating.isSome then ["average_rating"] else []) ++
  ["language", "source"]

/-- `BookBuilder.build` against a database modelled as the list of persisted
books: validates title and author, then constructs `Book(**self._book_data)`
— which in Django raises `TypeError` when `_book_data` holds a key that is
not a `Book` model field — and saves it. -/
def BookBuilder.build (d : BookData) (db : List Book) :
    Except String (Book × List Book) :=
  match d.title with
  | none => .error "Título é obrigatório para criar um livro"
  | some t =>
    if t = "" then .error "Título é obrigatório para criar um livro"
    else
      match d.author with
      | none => .error "Autor é obrigatório para criar um livro"
      | some a =>
        if a = "" then .error "Autor é obrigatório para criar um livro"
        else if bookInvalidKwargs d ≠ [] then
          .error "TypeError: invalid keyword argument for Book"
        else
          let book : Book :=
            { title := t, author := a, isbn := d.isbn.getD "",
              description := d.description.getD "", categories := d.categories }
          .ok (book, db ++ [book])

/-- Python `int(str(x))`: optional sign and decimal digits, surrounding
whitespace allowed (Python additionally permits digit-group underscores and
unicode digits, which never arise here). -/
def pyInt (s : String) : Option Int :=
  match (pyStrip s).data with
  | '-' :: cs => (digitsToNat cs).map (fun n => -(n : Int))
  | '+' :: cs => (digitsToNat cs).map (fun n => (n : Int))
  | cs => (digitsToNat cs).map (fun n => (n : Int))

/-- The publication-year step of `BookDirector.construct_from_adapter`: parse
the first four characters of a truthy `published_date`; both a parse failure
and the `ValueError` raised by `set_publication_year` on an out-of-range year
are swallowed by the surrounding `try/except`. -/
def constructYear (d : BookData) : Option String → BookData
  | none => d
  | some pd =>
    if pd = "" then d
    else
      match pyInt (pyTake pd 4) with
      | none => d
      | some y =>
        match BookBuilder.set_publication_year d y with
        | .ok d' => d'
        | .error _ => d

/-- The average-rating step of `BookDirector.construct_from_adapter`: only a
truthy rating is considered, and the `ValueError` raised by
`set_average_rating` on an out-of-range value is swallowed. -/
def constructRating (d : BookData) : Option ℚ → BookData
  | none => d
  | some q =>
    if q = 0 then d
    else
      match BookBuilder.set_average_rating d q with
      | .ok d' => d'
      | .error _ => d

/-- `BookDirector.construct_from_adapter`: builds one `Book` from a
normalized record, raising (`Except.error`) on a missing title or on any
uncaught builder validation failure, and finally calling `build`. -/
def BookDirector.construct_from_adapter (r : NormalizedRecord)
    (apiName : String) (db : List Book) : Except String (Book × List Book) :=
  if r.title = "" then
    .error "Dados normalizados sem título"
  else do
    let d ← BookBuilder.set_title BookBuilder.resetData r.title
    let d ← if r.authors ≠ [] then
        BookBuilder.set_author d (String.intercalate ", " r.authors)
      else
        BookBuilder.set_author d "Autor Desconhecido"
    let d ← match r.isbn with
      | some i => if i ≠ "" then BookBuilder.set_isbn d i else .ok d
      | none => .ok d
    let d ← match r.publisher with
      | some p => if p ≠ "" then BookBuilder.set_publisher d p else .ok d
      | none => .ok d
    let d := constructYear d r.publishedDate
    let d := match r.description with
      | some ds => if ds ≠ "" then BookBuilder.set_description d ds else d
      | none => d
    let d ← match r.coverUrl with
      | some u => if u ≠ "" then BookBuilder.set_cover_url d u else .ok d
      | none => .ok d
    let d ← match r.pageCount with
      | some n => if n ≠ 0 then BookBuilder.set_page_count d n else .ok d
      | none => .ok d
    let d ← match r.language with
      | some lg => if lg ≠ "" then BookBuilder.set_language d lg else .ok d
      | none => .ok d
    let d ← if r.categories ≠ [] then do
        let d' ← BookBuilder.set_genre d (r.categories.headD "")
        pure (r.categories.foldl BookBuilder.add_category d')
      else
        pure d
    let d := constructRating d r.averageRating
    let d ← BookBuilder.set_source d apiName
    BookBuilder.build d db

/-- One step of the `for normalized_data in self._iterator:` loop of
`IteratorBookBuilder.build_all`: optional skip-by-isbn existence check, then
construction; any raised exception is caught and the record skipped. -/
def buildAllStep (skipExisting : Bool) (acc : List Book × List Book)
    (r : NormalizedRecord) : List Book × List Book :=
  if skipExisting && truthyStr r.isbn &&
      acc.2.any (fun b => b.isbn == r.isbn.getD "") then
    acc
  else
    match BookDirector.construct_from_adapter r (r.apiSource.getD "unknown") acc.2 with
    | .ok (book, db') => (acc.1 ++ [book], db')
    | .error _ => acc

/-- `IteratorBookBuilder.build_all` over the iterator's record sequence and a
database state: returns the list of created books and the final database. -/
def IteratorBookBuilder.build_all (skipExisting : Bool)
    (records : List NormalizedRecord) (db : List Book) :
    List Book × List Book :=
  records.foldl (buildAllStep skipExisting) ([], db)

/-- One entry of `volumeInfo.industryIdentifiers` in a Google Books payload:
`type` and `identifier` keys, possibly absent. -/
structure GoogleIndustryIdentifier where
  idType : Option String
  identifier : Option String
deriving DecidableEq, Repr

/-- The `imageLinks` object of a Google Books payload. -/
structure GoogleImageLinks where
  extraLarge : Option String
  large : Option String
  medium : Option String
  thumbnail : Option String
  smallThumbnail : Option String
deriving DecidableEq, Repr

/-- The `volumeInfo` object of a Google Books payload (only the keys
`normalize_to_standard_format` reads). -/
structure GoogleVolumeInfo where
  title : Option String
  authors : Option (List String)
  industryIdentifiers : Option (List GoogleIndustryIdentifier)
  publisher : Option String
  publishedDate : Option String
  description : Option String
  imageLinks : Option GoogleImageLinks
  pageCount : Option Int
  categories : Option (List String)
  language : Option String
  averageRating : Option ℚ
deriving DecidableEq, Repr

/-- A raw Google Books API item. -/
structure GoogleApiData where
  volumeInfo : Option GoogleVolumeInfo
deriving DecidableEq, Repr

/-- The empty dict `{}` used as default for a missing `imageLinks`. -/
def emptyImageLinks : GoogleImageLinks :=
  ⟨none, none, none, none, none⟩

/-- The empty dict `{}` used as default for a missing `volumeInfo`. -/
def emptyVolumeInfo : GoogleVolumeInfo :=
  ⟨none, none, none, none, none, none, none, none, none, none, none⟩

/-- Python `str.replace('-', '')` on the isbn. -/
def removeHyphens (s : String) : String :=
  ⟨s.data.filter (fun c => c ≠ '-')⟩

/-- Python `a or b` on optional strings: the first truthy operand, else the
value of the last operand. -/
def pyOrStr (a b : Option String) : Option String :=
  match a with
  | some s => if s ≠ "" then some s else b
  | none => b

/-- `GoogleBooksAdapter.normalize_to_standard_format` (`adapters.py`): the
ISBN_13-typed identifier is preferred (first match wins), falling back to the
first ISBN_10-typed one; only hyphens are stripped.  The cover URL walks the
quality order `extraLarge, large, medium, thumbnail, smallThumbnail`. -/
def GoogleBooksAdapter.normalize_to_standard_format (apiData : GoogleApiData) :
    NormalizedRecord :=
  let vi := apiData.volumeInfo.getD emptyVolumeInfo
  let identifiers := vi.industryIdentifiers.getD []
  let isbn :=
    match identifiers.find? (fun i => i.idType == some "ISBN_13") with
    | some i => some (removeHyphens (i.identifier.getD ""))
    | none =>
      match identifiers.find? (fun i => i.idType == some "ISBN_10") with
      | some i => some (removeHyphens (i.identifier.getD ""))
      | none => none
  let imageLinks := vi.imageLinks.getD emptyImageLinks
  let coverUrl :=
    pyOrStr imageLinks.extraLarge
      (pyOrStr imageLinks.large
        (pyOrStr imageLinks.medium
          (pyOrStr imageLinks.thumbnail imageLinks.smallThumbnail)))
  { title := vi.title.getD "", authors := vi.authors.getD [], isbn := isbn,
    publisher := vi.publisher, publishedDate := some (vi.publishedDate.getD ""),
    description := vi.description, coverUrl := coverUrl,
    pageCount := vi.pageCount, categories := vi.categories.getD [],
    language := vi.language, averageRating := vi.averageRating,
    apiSource := none }

/-- One entry of the `authors` list of an Open Library ISBN payload. -/
structure OpenLibraryAuthor where
  name : Option String
deriving DecidableEq, Repr

/-- A raw Open Library document (search or ISBN endpoint; only the keys
`normalize_to_standard_format` reads). -/
structure OpenLibraryDoc where
  title : Option String
  author_name : Option (List String)
  authors : Option (List OpenLibraryAuthor)
  isbn : Option (List String)
  publisher : Option (List String)
  publishers : Option (List String)
  first_publish_year : Option Int
  publish_date : Option String
  cover_i : Option Int
  covers : Option (List Int)
  subject : Option (List String)
  language : Option (List String)
  number_of_pages : Option Int
deriving DecidableEq, Repr

/-- Python `max(x :: xs, key=len)`: the first element of maximal length. -/
def maxByLen (x : String) (xs : List String) : String :=
  xs.foldl (fun acc s => if acc.length < s.length then s else acc) x

/-- The three-letter language-code mapping of the Open Library adapter. -/
def langMap (code : String) : String :=
  match code with
  | "eng" => "en"
  | "por" => "pt-BR"
  | "spa" => "es"
  | "fre" => "fr"
  | "ger" => "de"
  | _ => code

/-- `OpenLibraryAdapter.normalize_to_standard_format` (`adapters.py`).  The
isbn is the longest identifier string (hyphens stripped); a missing isbn list
yields an absent isbn; authors come from `author_name` (search shape) or
`authors[*].name` (ISBN shape) or default to `[]`.  Python evaluates the
default argument `api_data.get('covers', [None])[0]` eagerly, so a present
but empty `covers` list raises `IndexError` (caught upstream per item). -/
def OpenLibraryAdapter.normalize_to_standard_format (doc : OpenLibraryDoc) :
    Except String NormalizedRecord := do
  let authors :=
    match doc.author_name with
    | some l => l
    | none =>
      match doc.authors with
      | some as => as.map (fun a => a.name.getD "")
      | none => []
  let isbn :=
    match doc.isbn with
    | some [] => none
    | some (x :: xs) => some (removeHyphens (maxByLen x xs))
    | none => none
  let pubs :=
    match doc.publisher with
    | some l => l
    | none => doc.publishers.getD []
  let publisher := pubs.head?
  let publishedDate :=
    match doc.first_publish_year with
    | some y => if y ≠ 0 then some (toString y) else none
    | none =>
      match doc.publish_date with
      | some s => if s ≠ "" then some s else none
      | none => none
  let coversFirst : Option Int ←
    match doc.covers with
    | some [] => .error "IndexError: list index out of range"
    | some (c :: _) => .ok (some c)
    | none => .ok none
  let coverId :=
    match doc.cover_i with
    | some c => some c
    | none => coversFirst
  let coverUrl :=
    match coverId with
    | some c =>
      if c ≠ 0 then
        some ("https://covers.openlibrary.org/b/id/" ++ toString c ++ "-L.jpg")
      else
        none
    | none => none
  let categories := (doc.subject.getD []).take 5
  let language :=
    match doc.language.getD [] with
    | [] => none
    | c :: _ => some (langMap c)
  .ok { title := doc.title.getD "", authors := authors, isbn := isbn,
        publisher := publisher, publishedDate := publishedDate,
        description := none, coverUrl := coverUrl,
        pageCount := doc.number_of_pages, categories := categories,
        language := language, averageRating := none, apiSource := none }

/-- A valid normalized record exactly as the repository's own test data
builds it (`test_iterators.py`, `IteratorBookBuilderTest.sample_results`,
first entry restricted to the fields the builder reads). -/
def validRec1 : NormalizedRecord :=
  { mkRec "Test Book 1" (some "9781111111111") with
      authors := ["Test Author 1"], apiSource := some "google_books" }

/-- A malformed record with empty title (as in
`test_build_with_invalid_data`). -/
def emptyTitleRec : NormalizedRecord :=
  { mkRec "" (some "9783333333333") with
      authors := ["Author"], apiSource := some "google_books" }

/-- Open Library search document carrying both a 10-digit identifier written
with hyphens (13 characters) and a plain 13-digit identifier. -/
def olDocBothIsbns : OpenLibraryDoc :=
  { title := some "1984", author_name := some ["George Orwell"],
    authors := none, isbn := some ["0-451-52493-4", "9780451524935"],
    publisher := none, publishers := none, first_publish_year := none,
    publish_date := none, cover_i := none, covers := none, subject := none,
    language := none, number_of_pages := none }

/-- Google Books item whose ISBN_13 identifier uses spaces as separators. -/
def googleSpaceIsbn : GoogleApiData :=
  ⟨some { emptyVolumeInfo with
      industryIdentifiers := some [⟨some "ISBN_13", some "978 0132350884"⟩] }⟩

lemma isbnKey_tagSource (n : String) (r : NormalizedRecord) :
    isbnKey (tagSource n r) = isbnKey r := rfl

lemma stripTag_tagSource (n : String) (r : NormalizedRecord) :
    stripTag (tagSource n r) = stripTag r := rfl

lemma processRecord_allResults_cases (d : Bool) (n : String) (st : AggState)
    (r0 : NormalizedRecord) :
    (processRecord d n st r0).allResults = st.allResults ∨
    (processRecord d n st r0).allResults = st.allResults ++ [tagSource n r0] := by
  unfold processRecord
  cases d with
  | false => simp
  | true =>
    cases h : (tagSource n r0).isbn with
    | none => simp [h]
    | some i =>
      by_cases hs : i ≠ "" ∧ i ∈ st.seenIsbns <;> simp [h, hs]

lemma processRecord_seen_mono (d : Bool) (n : String) (st : AggState)
    (r0 : NormalizedRecord) :
    st.seenIsbns ⊆ (processRecord d n st r0).seenIsbns := by
  unfold processRecord
  cases d with
  | false => simp
  | true =>
    cases h : (tagSource n r0).isbn with
    | none => simp [h]
    | some i =>
      by_cases hs : i ≠ "" ∧ i ∈ st.seenIsbns
      · simp [h, hs]
      · by_cases hi : i = ""
        · simp [h, hs, hi]
        · simp only [h, hs, if_false, hi]
          split <;>
            first
              | exact List.Subset.refl _
              | simp [hi, List.subset_cons_self]

lemma aggInv_processRecord (n : String) (st : AggState) (r0 : NormalizedRecord)
    (h : AggInv st) : AggInv (processRecord true n st r0) := by
  obtain ⟨hpw, hseen⟩ := h
  unfold processRecord
  simp only [if_pos]
  cases hib : (tagSource n r0).isbn with
  | none =>
    refine ⟨?_, ?_⟩
    · rw [List.pairwise_append]
      refine ⟨hpw, List.pairwise_singleton _ _, ?_⟩
      intro a _ b hb k _ hk
      simp only [List.mem_singleton] at hb
      subst hb
      rw [show isbnKey (tagSource n r0) = none by
        unfold isbnKey; rw [hib]] at hk
      exact Option.noConfusion hk
    · intro r hr k hk
      simp only [List.mem_append, List.mem_singleton] at hr
      rcases hr with hr | hr
      · exact hseen r hr k hk
      · subst hr
        rw [show isbnKey (tagSource n r0) = none by
          unfold isbnKey; rw [hib]] at hk
        exact Option.noConfusion hk
  | some i =>
    by_cases hs : i ≠ "" ∧ i ∈ st.seenIsbns
    · simpa [hib, hs] using ⟨hpw, hseen⟩
    · simp only [hib, hs, if_false]
      by_cases hi : i = ""
      · subst hi
        have hkey : isbnKey (tagSource n r0) = none := by
          unfold isbnKey; rw [hib]; simp
        refine ⟨?_, ?_⟩
        · rw [List.pairwise_append]
          refine ⟨hpw, List.pairwise_singleton _ _, ?_⟩
          intro a _ b hb k _ hk
          simp only [List.mem_singleton] at hb
          subst hb
          rw [hkey] at hk
          exact Option.noConfusion hk
        · intro r hr k hk
          simp only [List.mem_append, List.mem_singleton] at hr
          rcases hr with hr | hr
          · simpa using hseen r hr k hk
          · subst hr; rw [hkey] at hk; exact Option.noConfusion hk
      · have hnotseen : i ∉ st.seenIsbns := fun hmem => hs ⟨hi, hmem⟩
        have hkey : isbnKey (tagSource n r0) = some i := by
          unfold isbnKey; rw [hib]; simp [hi]
        refine ⟨?_, ?_⟩
        · rw [List.pairwise_append]
          refine ⟨hpw, List.pairwise_singleton _ _, ?_⟩
          intro a ha b hb k hak hbk
          simp only [List.mem_singleton] at hb
          subst hb
          rw [hkey] at hbk
          have : k ∈ st.seenIsbns := hseen a ha k hak
          cases hbk
          exact hnotseen this
        · intro r hr k hk
          simp only [List.mem_append, List.mem_singleton] at hr
          rcases hr with hr | hr
          · simp [hi, hseen r hr k hk]
          · subst hr
            rw [hkey] at hk
            cases hk
            simp [hi]

lemma aggInv_foldl_records (n : String) :
    ∀ (rs : List NormalizedRecord) (st : AggState), AggInv st →
      AggInv (rs.foldl (processRecord true n) st)
  | [], _, h => h
  | _ :: rs, st, h =>
    aggInv_foldl_records n rs _ (aggInv_processRecord n st _ h)

lemma aggInv_processAdapter (query : String) (limit : Nat) (st : AggState)
    (a : SourceAdapter) (h : AggInv st) :
    AggInv (processAdapter query limit true st a) := by
  unfold processAdapter
  cases a.searchByQuery query limit with
  | error _ => exact h
  | ok rs => exact aggInv_foldl_records a.apiName rs st h

lemma aggInv_foldl_adapters (query : String) (limit : Nat) :
    ∀ (adapters : List SourceAdapter) (st : AggState), AggInv st →
      AggInv (adapters.foldl (processAdapter query limit true) st)
  | [], _, h => h
  | _ :: as, st, h =>
    aggInv_foldl_adapters query limit as _ (aggInv_processAdapter query limit st _ h)

lemma processRecord_noKeyCount (n : String) (st : AggState)
    (r0 : NormalizedRecord) :
    noKeyCount (processRecord true n st r0).allResults =
      noKeyCount st.allResults + (if (isbnKey r0).isNone then 1 else 0) := by
  unfold processRecord noKeyCount
  simp only [if_pos]
  cases hib : (tagSource n r0).isbn with
  | none =>
    have hkey : isbnKey r0 = none := by
      rw [← isbnKey_tagSource n r0]; unfold isbnKey; rw [hib]
    have hkey' : isbnKey (tagSource n r0) = none := by
      rw [isbnKey_tagSource]; exact hkey
    simp [hkey, hkey', List.countP_append, List.countP_cons]
  | some i =>
    by_cases hi : i = ""
    · subst hi
      have hkey : isbnKey r0 = none := by
        rw [← isbnKey_tagSource n r0]; unfold isbnKey; rw [hib]; simp
      by_cases hs : ("" : String) ≠ "" ∧ ("" : String) ∈ st.seenIsbns
      · exact absurd rfl hs.1
      · simp [hs, hkey, List.countP_append, List.countP_cons]
        have : isbnKey (tagSource n r0) = none := by
          unfold isbnKey; rw [hib]; simp
        simp [this]
    · have hkey : isbnKey r0 = some i := by
        rw [← isbnKey_tagSource n r0]; unfold isbnKey; rw [hib]; simp [hi]
      by_cases hs : i ≠ "" ∧ i ∈ st.seenIsbns
      · simp [hib, hs, hkey]
      · simp [hib, hs, hkey, List.countP_append, List.countP_cons]
        have : isbnKey (tagSource n r0) = some i := by
          unfold isbnKey; rw [hib]; simp [hi]
        simp [this]

lemma foldl_records_noKeyCount (n : String) :
    ∀ (rs : List NormalizedRecord) (st : AggState),
      noKeyCount (rs.foldl (processRecord true n) st).allResults =
        noKeyCount st.allResults + rs.countP (fun r => (isbnKey r).isNone)
  | [], st => by simp [noKeyCount]
  | r :: rs, st => by
    rw [List.foldl_cons, foldl_records_noKeyCount n rs,
      processRecord_noKeyCount n st r, List.countP_cons]
    by_cases h : (isbnKey r).isNone <;> simp [h] <;> omega

lemma processAdapter_noKeyCount (query : String) (limit : Nat) (st : AggState)
    (a : SourceAdapter) :
    noKeyCount (processAdapter query limit true st a).allResults =
      noKeyCount st.allResults + adapterNoKeyCount a query limit := by
  unfold processAdapter adapterNoKeyCount
  cases a.searchByQuery query limit with
  | error _ => simp
  | ok rs => exact foldl_records_noKeyCount a.apiName rs st

lemma foldl_adapters_noKeyCount (query : String) (limit : Nat) :
    ∀ (adapters : List SourceAdapter) (st : AggState),
      noKeyCount (adapters.foldl (processAdapter query limit true) st).allResults =
        noKeyCount st.allResults +
          (adapters.map (fun a => adapterNoKeyCount a query limit)).sum
  | [], st => by simp
  | a :: as, st => by
    rw [List.foldl_cons, foldl_adapters_noKeyCount query limit as,
      processAdapter_noKeyCount query limit st a]
    simp [Nat.add_assoc]

lemma foldl_records_sublist (d : Bool) (n : String) :
    ∀ (rs : List NormalizedRecord) (st : AggState),
      ∃ contrib, (rs.foldl (processRecord d n) st).allResults =
          st.allResults ++ contrib ∧ List.Sublist contrib (rs.map (tagSource n))
  | [], st => ⟨[], by simp⟩
  | r :: rs, st => by
    obtain ⟨contrib, heq, hsub⟩ :=
      foldl_records_sublist d n rs (processRecord d n st r)
    rcases processRecord_allResults_cases d n st r with hc | hc
    · exact ⟨contrib, by rw [List.foldl_cons, heq, hc],
        List.Sublist.cons _ hsub⟩
    · refine ⟨tagSource n r :: contrib, ?_, List.Sublist.cons₂ _ hsub⟩
      rw [List.foldl_cons, heq, hc, List.append_assoc]
      rfl

lemma processAdapter_sublist (query : String) (limit : Nat) (st : AggState)
    (a : SourceAdapter) (d : Bool) :
    ∃ contrib, (processAdapter query limit d st a).allResults =
        st.allResults ++ contrib ∧ List.Sublist contrib (adapterTagged a query limit) := by
  unfold processAdapter adapterTagged
  cases a.searchByQuery query limit with
  | error _ => exact ⟨[], by simp⟩
  | ok rs => exact foldl_records_sublist d a.apiName rs st

lemma foldl_adapters_parts (query : String) (limit : Nat) (d : Bool) :
    ∀ (adapters : List SourceAdapter) (st : AggState),
      ∃ parts, (adapters.foldl (processAdapter query limit d) st).allResults =
          st.allResults ++ parts.join ∧
        List.Forall₂ (fun p a => List.Sublist p (adapterTagged a query limit)) parts adapters
  | [], st => ⟨[], by simp, List.Forall₂.nil⟩
  | a :: as, st => by
    obtain ⟨contrib, hc, hcsub⟩ := processAdapter_sublist query limit st a d
    obtain ⟨parts, hp, hpf⟩ :=
      foldl_adapters_parts query limit d as (processAdapter query limit d st a)
    exact ⟨contrib :: parts, by rw [List.foldl_cons, hp, hc, List.append_assoc]; rfl,
      List.Forall₂.cons hcsub hpf⟩

lemma processAdapter_of_error (query : String) (limit : Nat) (st : AggState)
    (a : SourceAdapter) (d : Bool) (h : searchOk a query limit = false) :
    processAdapter query limit d st a = st := by
  unfold processAdapter
  unfold searchOk at h
  cases hq : a.searchByQuery query limit with
  | error _ => rfl
  | ok rs => rw [hq] at h; exact absurd h (by simp)

lemma foldl_adapters_filter_ok (query : String) (limit : Nat) (d : Bool) :
    ∀ (adapters : List SourceAdapter) (st : AggState),
      adapters.foldl (processAdapter query limit d) st =
        (adapters.filter (fun a => searchOk a query limit)).foldl
          (processAdapter query limit d) st
  | [], _ => rfl
  | a :: as, st => by
    by_cases h : searchOk a query limit
    · rw [List.foldl_cons]
      simp only [List.filter_cons, h, if_true]
      rw [List.foldl_cons, foldl_adapters_filter_ok query limit d as]
    · have h' : searchOk a query limit = false := by simpa using h
      rw [List.foldl_cons,
        processAdapter_of_error query limit st a d h',
        foldl_adapters_filter_ok query limit d as]
      simp [List.filter_cons, h']

lemma foldl_records_nodedupe (n : String) :
    ∀ (rs : List NormalizedRecord) (st : AggState),
      (rs.foldl (processRecord false n) st).allResults =
        st.allResults ++ rs.map (tagSource n)
  | [], st => by simp
  | r :: rs, st => by
    rw [List.foldl_cons, foldl_records_nodedupe n rs]
    show (processRecord false n st r).allResults ++ _ = _
    unfold processRecord
    simp

lemma processAdapter_nodedupe (query : String) (limit : Nat) (st : AggState)
    (a : SourceAdapter) :
    (processAdapter query limit false st a).allResults =
      st.allResults ++ adapterTagged a query limit := by
  unfold processAdapter adapterTagged
  cases a.searchByQuery query limit with
  | error _ => simp
  | ok rs => exact foldl_records_nodedupe a.apiName rs st

lemma foldl_adapters_nodedupe (query : String) (limit : Nat) :
    ∀ (adapters : List SourceAdapter) (st : AggState),
      (adapters.foldl (processAdapter query limit false) st).allResults =
        st.allResults ++ (adapters.map (fun a => adapterTagged a query limit)).join
  | [], st => by simp
  | a :: as, st => by
    rw [List.foldl_cons, foldl_adapters_nodedupe query limit as,
      processAdapter_nodedupe query limit st a]
    simp

lemma mem_foldl_adapters (query : String) (limit : Nat) (d : Bool) :
    ∀ (adapters : List SourceAdapter) (st : AggState) (r : NormalizedRecord),
      r ∈ (adapters.foldl (processAdapter query limit d) st).allResults →
      r ∈ st.allResults ∨ fromAdapters adapters query limit r
  | [], _, _, h => Or.inl h
  | a :: as, st, r, h => by
    rw [List.foldl_cons] at h
    rcases mem_foldl_adapters query limit d as _ r h with h1 | h1
    · obtain ⟨contrib, hc, hcsub⟩ := processAdapter_sublist query limit st a d
      rw [hc, List.mem_append] at h1
      rcases h1 with h1 | h1
      · exact Or.inl h1
      · right
        have h2 : r ∈ adapterTagged a query limit := hcsub.subset h1
        unfold adapterTagged at h2
        cases hq : a.searchByQuery query limit with
        | error _ => rw [hq] at h2; exact absurd h2 (List.not_mem_nil r)
        | ok rs =>
          rw [hq] at h2
          obtain ⟨r0, hr0, hr0eq⟩ := List.mem_map.mp h2
          exact ⟨a, List.mem_cons_self a as, rs, hq, r0, hr0, hr0eq.symm⟩
    · right
      obtain ⟨a', ha', rest⟩ := h1
      exact ⟨a', List.mem_cons_of_mem a ha', rest⟩

lemma load_next_page_of_maxPages (fetch : Nat → Except String (List NormalizedRecord))
    (maxPages : Nat) (s : LazyState) (h : maxPages ≤ s.currentPage) :
    s.load_next_page fetch maxPages = { s with exhausted := true } := by
  unfold LazyState.load_next_page
  rw [if_pos h]

lemma load_next_page_of_error (fetch : Nat → Except String (List NormalizedRecord))
    (maxPages : Nat) (s : LazyState) (e : String) (h : s.currentPage < maxPages)
    (hf : fetch s.currentPage = .error e) :
    s.load_next_page fetch maxPages = { s with exhausted := true } := by
  unfold LazyState.load_next_page
  rw [if_neg (by omega), hf]

lemma load_next_page_of_empty (fetch : Nat → Except String (List NormalizedRecord))
    (maxPages : Nat) (s : LazyState) (h : s.currentPage < maxPages)
    (hf : fetch s.currentPage = .ok []) :
    s.load_next_page fetch maxPages = { s with exhausted := true } := by
  unfold LazyState.load_next_page
  rw [if_neg (by omega), hf]
  rfl

lemma load_next_page_of_ok (fetch : Nat → Except String (List NormalizedRecord))
    (maxPages : Nat) (s : LazyState) (rs : List NormalizedRecord)
    (h : s.currentPage < maxPages) (hf : fetch s.currentPage = .ok rs)
    (hne : rs ≠ []) :
    s.load_next_page fetch maxPages =
      { s with currentResults := rs, positionInPage := 0,
               currentPage := s.currentPage + 1 } := by
  unfold LazyState.load_next_page
  rw [if_neg (by omega), hf]
  simp [hne]

lemma load_next_page_spec (fetch : Nat → Except String (List NormalizedRecord))
    (maxPages : Nat) (s : LazyState) :
    s.load_next_page fetch maxPages = { s with exhausted := true } ∨
    ∃ rs, fetch s.currentPage = .ok rs ∧ rs ≠ [] ∧ s.currentPage < maxPages ∧
      s.load_next_page fetch maxPages =
        { s with currentResults := rs, positionInPage := 0,
                 currentPage := s.currentPage + 1 } := by
  by_cases h : maxPages ≤ s.currentPage
  · exact Or.inl (load_next_page_of_maxPages fetch maxPages s h)
  · cases hf : fetch s.currentPage with
    | error e =>
      exact Or.inl (load_next_page_of_error fetch maxPages s e (by omega) hf)
    | ok rs =>
      by_cases hne : rs = []
      · subst hne
        exact Or.inl (load_next_page_of_empty fetch maxPages s (by omega) hf)
      · exact Or.inr ⟨rs, rfl, hne, by omega,
          load_next_page_of_ok fetch maxPages s rs (by omega) hf hne⟩

lemma lazyNext_of_exhausted (fetch : Nat → Except String (List NormalizedRecord))
    (maxPages : Nat) (s : LazyState) (h : s.exhausted = true) :
    s.next fetch maxPages = none := by
  unfold LazyState.next LazyState.has_next
  simp [h]

lemma lazyRun_of_exhausted (fetch : Nat → Except String (List NormalizedRecord))
    (maxPages : Nat) (fuel : Nat) (s : LazyState) (h : s.exhausted = true) :
    LazyState.run fetch maxPages fuel s = [] := by
  cases fuel with
  | zero => rfl
  | succ n =>
    unfold LazyState.run
    rw [lazyNext_of_exhausted fetch maxPages s h]

lemma has_next_iff (s : LazyState) :
    s.has_next = true ↔
      s.exhausted = false ∧ s.positionInPage < s.currentResults.length := by
  unfold LazyState.has_next
  by_cases h : s.exhausted <;> simp [h]

lemma lazyNext_cases (fetch : Nat → Except String (List NormalizedRecord))
    (maxPages : Nat) (s : LazyState) (r : NormalizedRecord) (s' : LazyState)
    (h : s.next fetch maxPages = some (r, s')) :
    s.exhausted = false ∧ s.positionInPage < s.currentResults.length ∧
    s.currentResults.get? s.positionInPage = some r ∧
    ((s.currentResults.length ≤ s.positionInPage + 1 ∧
      s' = LazyState.load_next_page fetch maxPages
        { s with positionInPage := s.positionInPage + 1 }) ∨
     (s.positionInPage + 1 < s.currentResults.length ∧
      s' = { s with positionInPage := s.positionInPage + 1 })) := by
  unfold LazyState.next at h
  by_cases hn : s.has_next
  · rw [if_pos hn] at h
    obtain ⟨hexh, hpos⟩ := (has_next_iff s).mp hn
    cases hget : s.currentResults.get? s.positionInPage with
    | none =>
      rw [List.get?_eq_none] at hget
      omega
    | some r' =>
      rw [hget] at h
      simp only at h
      by_cases hend : s.currentResults.length ≤ s.positionInPage + 1
      · rw [if_pos hend] at h
        have h2 := Option.some.inj h
        rw [Prod.mk.injEq] at h2
        obtain ⟨hr, hs⟩ := h2
        exact ⟨hexh, hpos, congrArg some hr, Or.inl ⟨hend, hs.symm⟩⟩
      · rw [if_neg hend] at h
        have h2 := Option.some.inj h
        rw [Prod.mk.injEq] at h2
        obtain ⟨hr, hs⟩ := h2
        exact ⟨hexh, hpos, congrArg some hr, Or.inr ⟨by omega, hs.symm⟩⟩
  · rw [if_neg hn] at h
    exact absurd h (by simp)

lemma lazyInv_load (fetch : Nat → Except String (List NormalizedRecord))
    (maxPages : Nat) (s : LazyState)
    (hpos : s.positionInPage = s.currentResults.length)
    (hexh : s.exhausted = false) (hpage : s.currentPage ≤ maxPages) :
    LazyInv maxPages (s.load_next_page fetch maxPages) := by
  rcases load_next_page_spec fetch maxPages s with h | ⟨rs, _, hne, hlt, h⟩
  · rw [h]
    exact ⟨fun _ => hpos, fun hc => by simp at hc, hpage⟩
  · rw [h]
    refine ⟨fun hc => ?_, fun _ => ?_, ?_⟩
    · exact absurd (hexh ▸ hc) (by simp)
    · exact List.length_pos.mpr hne
    · show s.currentPage + 1 ≤ maxPages
      omega

lemma lazyInv_init (fetch : Nat → Except String (List NormalizedRecord))
    (maxPages : Nat) : LazyInv maxPages (LazyState.init fetch maxPages) :=
  lazyInv_load fetch maxPages ⟨0, 0, [], false⟩ rfl rfl (Nat.zero_le _)

lemma lazyInv_next (fetch : Nat → Except String (List NormalizedRecord))
    (maxPages : Nat) (s : LazyState) (r : NormalizedRecord) (s' : LazyState)
    (hinv : LazyInv maxPages s) (h : s.next fetch maxPages = some (r, s')) :
    LazyInv maxPages s' := by
  obtain ⟨hexh, hpos, _, hbranch⟩ := lazyNext_cases fetch maxPages s r s' h
  obtain ⟨_, _, h3⟩ := hinv
  rcases hbranch with ⟨hend, rfl⟩ | ⟨hlt, rfl⟩
  · refine lazyInv_load fetch maxPages _ ?_ ?_ ?_
    · show s.positionInPage + 1 = s.currentResults.length
      omega
    · exact hexh
    · exact h3
  · refine ⟨fun hc => ?_, fun _ => ?_, h3⟩
    · exact absurd (hexh ▸ hc) (by simp)
    · exact hlt

lemma lazyInv_reset (fetch : Nat → Except String (List NormalizedRecord))
    (maxPages : Nat) (s : LazyState) :
    LazyInv maxPages (s.reset fetch maxPages) := by
  unfold LazyState.reset
  exact lazyInv_load fetch maxPages _ rfl rfl (Nat.zero_le _)

lemma lazyInv_reachable (fetch : Nat → Except String (List NormalizedRecord))
    (maxPages : Nat) (s : LazyState)
    (h : LazyReachable fetch maxPages s) : LazyInv maxPages s := by
  induction h with
  | init => exact lazyInv_init fetch maxPages
  | step _ hn ih => exact lazyInv_next fetch maxPages _ _ _ ih hn
  | reset _ _ => exact lazyInv_reset fetch maxPages _

lemma lazyNext_eq_none_iff (fetch : Nat → Except String (List NormalizedRecord))
    (maxPages : Nat) (s : LazyState) (hinv : LazyInv maxPages s) :
    s.next fetch maxPages = none ↔
      s.exhausted = true ∧ s.positionInPage = s.currentResults.length := by
  constructor
  · intro h
    by_cases hexh : s.exhausted
    · exact ⟨hexh, hinv.1 hexh⟩
    · exfalso
      have hexh' : s.exhausted = false := by simpa using hexh
      have hpos := hinv.2.1 hexh'
      unfold LazyState.next at h
      rw [if_pos ((has_next_iff s).mpr ⟨hexh', hpos⟩)] at h
      cases hget : s.currentResults.get? s.positionInPage with
      | none =>
        rw [List.get?_eq_none] at hget
        omega
      | some r' =>
        rw [hget] at h
        simp only at h
        by_cases hend : s.currentResults.length ≤ s.positionInPage + 1
        · rw [if_pos hend] at h
          exact absurd h (by simp)
        · rw [if_neg hend] at h
          exact absurd h (by simp)
  · intro ⟨hexh, _⟩
    exact lazyNext_of_exhausted fetch maxPages s hexh

lemma lazyRun_length_le (fetch : Nat → Except String (List NormalizedRecord))
    (maxPages pageSize : Nat)
    (hfetch : ∀ p rs, fetch p = .ok rs → rs.length ≤ pageSize) :
    ∀ (fuel : Nat) (s : LazyState),
      (LazyState.run fetch maxPages fuel s).length ≤
        (maxPages - s.currentPage) * pageSize +
          (s.currentResults.length - s.positionInPage)
  | 0, s => by simp [LazyState.run]
  | fuel + 1, s => by
    unfold LazyState.run
    cases hn : s.next fetch maxPages with
    | none => simp
    | some p =>
      obtain ⟨r, s'⟩ := p
      obtain ⟨hexh, hpos, _, hbranch⟩ := lazyNext_cases fetch maxPages s r s' hn
      simp only [List.length_cons]
      rcases hbranch with ⟨hend, hs'⟩ | ⟨hlt, hs'⟩
      · rcases load_next_page_spec fetch maxPages
          { s with positionInPage := s.positionInPage + 1 } with hld | ⟨rs, hf, hne, hpl, hld⟩
        · have hrun : LazyState.run fetch maxPages fuel s' = [] := by
            rw [hs', hld]
            exact lazyRun_of_exhausted _ _ _ _ rfl
          rw [hrun]
          have h1 : 1 ≤ s.currentResults.length - s.positionInPage := by omega
          calc ([] : List NormalizedRecord).length + 1 = 1 := by simp
            _ ≤ s.currentResults.length - s.positionInPage := h1
            _ ≤ (maxPages - s.currentPage) * pageSize +
                  (s.currentResults.length - s.positionInPage) := Nat.le_add_left _ _
        · have IH := lazyRun_length_le fetch maxPages pageSize hfetch fuel s'
          rw [hs', hld] at IH ⊢
          dsimp only at IH ⊢
          have hrslen : rs.length ≤ pageSize := hfetch s.currentPage rs hf
          have hpl' : s.currentPage < maxPages := hpl
          have hlen : s.currentResults.length = s.positionInPage + 1 := by omega
          obtain ⟨k, hk⟩ : ∃ k, maxPages - s.currentPage = k + 1 :=
            ⟨maxPages - s.currentPage - 1, by omega⟩
          have hk2 : maxPages - (s.currentPage + 1) = k := by omega
          rw [hk2] at IH
          rw [hk, hlen]
          have hmul : (k + 1) * pageSize = k * pageSize + pageSize := by ring
          rw [hmul]
          omega
      · have IH := lazyRun_length_le fetch maxPages pageSize hfetch fuel s'
        rw [hs'] at IH ⊢
        dsimp only at IH ⊢
        omega

lemma multiRun_eq_drop_take :
    ∀ (fuel : Nat) (l : List NormalizedRecord) (p : Nat),
      MultiSourceIterator.run fuel ⟨l, p⟩ = (l.drop p).take fuel
  | 0, _, _ => by simp [MultiSourceIterator.run]
  | fuel + 1, l, p => by
    unfold MultiSourceIterator.run MultiSourceIterator.next
    by_cases h : p < l.length
    · rw [dif_pos h]
      simp only
      rw [multiRun_eq_drop_take fuel l (p + 1)]
      rw [List.drop_eq_getElem_cons h, List.take_cons]
      · simp [List.get_eq_getElem]
      · omega
    · rw [dif_neg h]
      rw [List.drop_eq_nil_of_le (by omega)]
      simp

lemma adapterTagged_length_le (query : String) (limit : Nat) (a : SourceAdapter)
    (h : ∀ rs, a.searchByQuery query limit = .ok rs → rs.length ≤ limit) :
    (adapterTagged a query limit).length ≤ limit := by
  unfold adapterTagged
  cases hq : a.searchByQuery query limit with
  | error _ => simp
  | ok rs => simpa using h rs hq

lemma parts_join_length_le (query : String) (limit : Nat) :
    ∀ (parts : List (List NormalizedRecord)) (adapters : List SourceAdapter),
      List.Forall₂ (fun p a => List.Sublist p (adapterTagged a query limit))
        parts adapters →
      (∀ a ∈ adapters, ∀ rs, a.searchByQuery query limit = .ok rs →
        rs.length ≤ limit) →
      parts.join.length ≤ adapters.length * limit := by
  intro parts adapters hf
  induction hf with
  | nil => simp
  | @cons p a parts' adapters' hpa _ ih =>
    intro hlim
    have h1 : p.length ≤ limit :=
      le_trans hpa.length_le
        (adapterTagged_length_le query limit a
          (fun rs h => hlim a (List.mem_cons_self a adapters') rs h))
    have h2 : parts'.join.length ≤ adapters'.length * limit :=
      ih (fun a' ha' rs h => hlim a' (List.mem_cons_of_mem a ha') rs h)
    simp only [List.join_cons, List.length_append, List.length_cons]
    calc p.length + parts'.join.length ≤ limit + adapters'.length * limit := by omega
      _ = (adapters'.length + 1) * limit := by ring
    
lemma maxByLen_mem : ∀ (xs : List String) (x : String), maxByLen x xs ∈ x :: xs
  | [], x => List.mem_singleton.mpr rfl
  | y :: ys, x => by
    unfold maxByLen
    rw [List.foldl_cons]
    by_cases h : x.length < y.length
    · rw [if_pos h]
      have := maxByLen_mem ys y
      simp only [List.mem_cons] at this ⊢
      unfold maxByLen at this
      tauto
    · rw [if_neg h]
      have := maxByLen_mem ys x
      simp only [List.mem_cons] at this ⊢
      unfold maxByLen at this
      tauto

lemma maxByLen_ge : ∀ (xs : List String) (x : String), ∀ s ∈ x :: xs,
    s.length ≤ (maxByLen x xs).length
  | [], x => by
    intro s hs
    simp only [List.mem_singleton] at hs
    subst hs
    exact le_refl _
  | y :: ys, x => by
    intro s hs
    unfold maxByLen
    rw [List.foldl_cons]
    have hmax := maxByLen_ge ys (if x.length < y.length then y else x)
    unfold maxByLen at hmax
    have hz : x.length ≤ (if x.length < y.length then y else x).length ∧
        y.length ≤ (if x.length < y.length then y else x).length := by
      by_cases h : x.length < y.length
      · rw [if_pos h]
        omega
      · rw [if_neg h]
        omega
    simp only [List.mem_cons] at hs
    rcases hs with rfl | rfl | hs
    · exact le_trans hz.1 (hmax _ (List.mem_cons_self _ _))
    · exact le_trans hz.2 (hmax _ (List.mem_cons_self _ _))
    · exact hmax s (List.mem_cons_of_mem _ hs)

lemma string_length_mk (l : List Char) : (⟨l⟩ : String).length = l.length := rfl

lemma removeHyphens_of_digits (s : String)
    (h : s.data.all Char.isDigit = true) : removeHyphens s = s := by
  unfold removeHyphens
  have : s.data.filter (fun c => c ≠ '-') = s.data := by
    apply List.filter_eq_self.mpr
    intro c hc
    have hd : c.isDigit = true := by
      rw [List.all_eq_true] at h
      exact h c hc
    have : c ≠ '-' := by
      intro hcc
      rw [hcc] at hd
      exact absurd hd (by decide)
    simpa using this
  rw [this]

lemma ol_normalize_ok (doc : OpenLibraryDoc) (r : NormalizedRecord)
    (h : OpenLibraryAdapter.normalize_to_standard_format doc = .ok r) :
    r.isbn = (match doc.isbn with
      | some [] => none
      | some (x :: xs) => some (removeHyphens (maxByLen x xs))
      | none => none) ∧
    r.authors = (match doc.author_name with
      | some l => l
      | none =>
        match doc.authors with
        | some as => as.map (fun a => a.name.getD "")
        | none => []) := by
  unfold OpenLibraryAdapter.normalize_to_standard_format at h
  cases hc : doc.covers with
  | none =>
    rw [hc] at h
    simp only [bind, Except.bind] at h
    cases h
    exact ⟨rfl, rfl⟩
  | some l =>
    cases l with
    | nil =>
      rw [hc] at h
      simp [bind, Except.bind] at h
    | cons c cs =>
      rw [hc] at h
      simp only [bind, Except.bind] at h
      cases h
      exact ⟨rfl, rfl⟩

/-- C1: with deduplication enabled, no two aggregated records share a
non-empty isbn (the output is pairwise `noSharedIsbn`), records with empty or
absent isbn are never dropped (their count equals the total over all
non-failing adapters), and the two-source scenario A=[111,222], B=[222,333]
yields exactly [111,222,333] tagged [A,A,B] in order. -/
theorem c1_dedup_no_shared_isbn_keyless_kept :
    (∀ (adapters : List SourceAdapter) (query : String) (limit : Nat),
      (MultiSourceIterator.load_all_results adapters query limit true).Pairwise
        noSharedIsbn) ∧
    (∀ (adapters : List SourceAdapter) (query : String) (limit : Nat),
      noKeyCount (MultiSourceIterator.load_all_results adapters query limit true) =
        (adapters.map (fun a => adapterNoKeyCount a query limit)).sum) ∧
    MultiSourceIterator.load_all_results [adapterA, adapterB] "1984" 10 true =
      [tagSource "A" recA111, tagSource "A" recA222, tagSource "B" recB333] := by
  refine ⟨?_, ?_, by decide⟩
  · intro adapters query limit
    exact (aggInv_foldl_adapters query limit adapters ⟨[], []⟩
      ⟨List.Pairwise.nil, fun r hr => absurd hr (List.not_mem_nil r)⟩).1
  · intro adapters query limit
    have h := foldl_adapters_noKeyCount query limit adapters ⟨[], []⟩
    simpa [MultiSourceIterator.load_all_results, noKeyCount] using h

/-- C2: every aggregation decomposes source-major — the output is the
concatenation, in adapter order, of an order-preserving sublist of each
adapter's tagged results — its length is bounded by (number of adapters) ×
limit whenever each adapter respects its per-source limit, and iterating the
`MultiSourceIterator` yields exactly the aggregated list in order. -/
theorem c2_source_major_order_and_length_bound :
    (∀ (adapters : List SourceAdapter) (query : String) (limit : Nat)
        (dedupe : Bool),
      ∃ parts : List (List NormalizedRecord),
        MultiSourceIterator.load_all_results adapters query limit dedupe =
          parts.join ∧
        List.Forall₂ (fun p a => List.Sublist p (adapterTagged a query limit))
          parts adapters) ∧
    (∀ (adapters : List SourceAdapter) (query : String) (limit : Nat)
        (dedupe : Bool),
      (∀ a ∈ adapters, ∀ rs, a.searchByQuery query limit = .ok rs →
        rs.length ≤ limit) →
      (MultiSourceIterator.load_all_results adapters query limit dedupe).length ≤
        adapters.length * limit) ∧
    (∀ (l : List NormalizedRecord) (fuel : Nat),
      MultiSourceIterator.run fuel ⟨l, 0⟩ = l.take fuel) := by
  refine ⟨?_, ?_, ?_⟩
  · intro adapters query limit dedupe
    obtain ⟨parts, hp, hf⟩ := foldl_adapters_parts query limit dedupe adapters ⟨[], []⟩
    exact ⟨parts, by simpa [MultiSourceIterator.load_all_results] using hp, hf⟩
  · intro adapters query limit dedupe hlim
    obtain ⟨parts, hp, hf⟩ := foldl_adapters_parts query limit dedupe adapters ⟨[], []⟩
    have heq : MultiSourceIterator.load_all_results adapters query limit dedupe =
        parts.join := by
      simpa [MultiSourceIterator.load_all_results] using hp
    rw [heq]
    exact parts_join_length_le query limit parts adapters hf hlim
  · intro l fuel
    simpa using multiRun_eq_drop_take fuel l 0

/-- C2 witness: the length bound instantiated at the concrete two-adapter
scenario, with the per-source-limit hypothesis discharged by computation. -/
theorem c2_witness :
    (MultiSourceIterator.load_all_results [adapterA, adapterB] "1984" 10 true).length ≤
      2 * 10 :=
  c2_source_major_order_and_length_bound.2.1 [adapterA, adapterB] "1984" 10 true
    (fun a ha rs h => by
      rcases List.mem_cons.mp ha with rfl | ha2
      · injection h with h2
        subst h2
        decide
      · rcases List.mem_singleton.mp ha2 with rfl
        injection h with h2
        subst h2
        decide)

/-- C3 counterexample: with deduplication on (the default), adapter A is
non-failing and returns two distinct records that share isbn 111 while
adapter B raises; the second of A's records does not appear in the output,
so "every record returned by each non-failing adapter still appears" is
false as stated. -/
theorem c3_counterexample_dedup_drops_nonfailing_record :
    adapterDup.searchByQuery "1984" 10 = .ok [recX111, recY111] ∧
    searchOk adapterBoom "1984" 10 = false ∧
    MultiSourceIterator.load_all_results [adapterDup, adapterBoom] "1984" 10 true =
      [tagSource "A" recX111] ∧
    tagSource "A" recY111 ∉
      MultiSourceIterator.load_all_results [adapterDup, adapterBoom] "1984" 10 true := by
  exact ⟨by decide, by decide, by decide, by decide⟩

/-- C3 amended: a failing adapter is absorbed locally — the aggregation
equals the aggregation over the non-failing adapters alone (so it contributes
zero records and no exception escapes); with deduplication disabled every
record of every non-failing adapter appears tagged in the output; when every
adapter fails the aggregation is empty; and in the scenario [A, B] with B
raising, all of A's records are returned. -/
theorem c3_amended_failures_absorbed_locally :
    (∀ (adapters : List SourceAdapter) (query : String) (limit : Nat)
        (dedupe : Bool),
      MultiSourceIterator.load_all_results adapters query limit dedupe =
        MultiSourceIterator.load_all_results
          (adapters.filter (fun a => searchOk a query limit)) query limit dedupe) ∧
    (∀ (adapters : List SourceAdapter) (query : String) (limit : Nat),
      ∀ a ∈ adapters, ∀ rs, a.searchByQuery query limit = .ok rs →
        ∀ r ∈ rs, tagSource a.apiName r ∈
          MultiSourceIterator.load_all_results adapters query limit false) ∧
    (∀ (adapters : List SourceAdapter) (query : String) (limit : Nat)
        (dedupe : Bool),
      (∀ a ∈ adapters, searchOk a query limit = false) →
      MultiSourceIterator.load_all_results adapters query limit dedupe = []) ∧
    MultiSourceIterator.load_all_results [adapterA, adapterBoom] "1984" 10 true =
      [tagSource "A" recA111, tagSource "A" recA222] := by
  refine ⟨?_, ?_, ?_, by decide⟩
  · intro adapters query limit dedupe
    unfold MultiSourceIterator.load_all_results
    rw [foldl_adapters_filter_ok query limit dedupe adapters]
  · intro adapters query limit a ha rs hrs r hr
    unfold MultiSourceIterator.load_all_results
    rw [foldl_adapters_nodedupe query limit adapters ⟨[], []⟩]
    simp only [List.nil_append]
    apply List.mem_join.mpr
    refine ⟨adapterTagged a query limit, List.mem_map_of_mem _ ha, ?_⟩
    unfold adapterTagged
    rw [hrs]
    exact List.mem_map_of_mem _ hr
  · intro adapters query limit dedupe hall
    unfold MultiSourceIterator.load_all_results
    rw [foldl_adapters_filter_ok query limit dedupe adapters]
    rw [List.filter_eq_nil.mpr (by intro a ha; simp [hall a ha])]
    rfl

/-- C3 amended witness: the filter law, the membership law and the empty law
at concrete adapters (hypotheses discharged by computation). -/
theorem c3_amended_witness :
    tagSource "A" recA111 ∈
      MultiSourceIterator.load_all_results [adapterA, adapterBoom] "1984" 10 false ∧
    MultiSourceIterator.load_all_results [adapterBoom] "1984" 10 true = [] :=
  ⟨c3_amended_failures_absorbed_locally.2.1 [adapterA, adapterBoom] "1984" 10
      adapterA (List.mem_cons_self _ _) [recA111, recA222] rfl recA111
      (by decide),
   c3_amended_failures_absorbed_locally.2.2.1 [adapterBoom] "1984" 10 true
      (fun a ha => by rcases List.mem_singleton.mp ha with rfl; decide)⟩

/-- C8: every aggregated record is exactly an adapter-returned record with
only the `_api_source` tag set — its content (all normalized fields) is
unchanged by tagging and deduplication. -/
theorem c8_records_unchanged_apart_from_tag :
    ∀ (adapters : List SourceAdapter) (query : String) (limit : Nat)
      (dedupe : Bool) (r : NormalizedRecord),
      r ∈ MultiSourceIterator.load_all_results adapters query limit dedupe →
      ∃ a ∈ adapters, ∃ rs, a.searchByQuery query limit = .ok rs ∧
        ∃ r0 ∈ rs, r = tagSource a.apiName r0 ∧ stripTag r = stripTag r0 := by
  intro adapters query limit dedupe r hr
  unfold MultiSourceIterator.load_all_results at hr
  rcases mem_foldl_adapters query limit dedupe adapters ⟨[], []⟩ r hr with h | h
  · exact absurd h (List.not_mem_nil r)
  · obtain ⟨a, ha, rs, hrs, r0, hr0, heq⟩ := h
    exact ⟨a, ha, rs, hrs, r0, hr0, heq, by rw [heq, stripTag_tagSource]⟩

/-- C8 witness: provenance of the first aggregated record of the two-source
scenario. -/
theorem c8_witness :
    ∃ a ∈ [adapterA, adapterB], ∃ rs, a.searchByQuery "1984" 10 = .ok rs ∧
      ∃ r0 ∈ rs, tagSource "A" recA111 = tagSource a.apiName r0 ∧
        stripTag (tagSource "A" recA111) = stripTag r0 :=
  c8_records_unchanged_apart_from_tag [adapterA, adapterB] "1984" 10 true
    (tagSource "A" recA111) (by decide)

/-- C4: in every reachable state of a `LazyAPIIterator`, `__next__` raises
`StopIteration` (returns `none`) exactly when the iterator is exhausted with
no buffered item remaining; the produced sequence is bounded by
maxPages × pageSize whenever every fetch respects the page size; and with
pageSize 5, maxPages 1 and a first page of five records, five calls succeed
and the sixth signals end-of-sequence (the run no longer grows). -/
theorem c4_lazy_end_of_sequence_and_bound :
    (∀ (fetch : Nat → Except String (List NormalizedRecord)) (maxPages : Nat)
        (s : LazyState), LazyReachable fetch maxPages s →
      (s.next fetch maxPages = none ↔
        s.exhausted = true ∧ s.positionInPage = s.currentResults.length)) ∧
    (∀ (fetch : Nat → Except String (List NormalizedRecord))
        (maxPages pageSize : Nat),
      (∀ p rs, fetch p = .ok rs → rs.length ≤ pageSize) →
      ∀ fuel,
        (LazyState.run fetch maxPages fuel (LazyState.init fetch maxPages)).length ≤
          maxPages * pageSize) ∧
    (LazyState.run fetch5 1 5 (LazyState.init fetch5 1) = page5 ∧
     LazyState.run fetch5 1 6 (LazyState.init fetch5 1) = page5) := by
  refine ⟨?_, ?_, by decide, by decide⟩
  · intro fetch maxPages s hreach
    exact lazyNext_eq_none_iff fetch maxPages s
      (lazyInv_reachable fetch maxPages s hreach)
  · intro fetch maxPages pageSize hfetch fuel
    have H := lazyRun_length_le fetch maxPages pageSize hfetch fuel
      (LazyState.init fetch maxPages)
    unfold LazyState.init at H ⊢
    rcases load_next_page_spec fetch maxPages ⟨0, 0, [], false⟩ with
      hld | ⟨rs, hf, hne, hpl, hld⟩
    · rw [hld] at H ⊢
      dsimp only at H
      simpa using H
    · rw [hld] at H ⊢
      dsimp only at H ⊢
      have h1 : rs.length ≤ pageSize := hfetch 0 rs hf
      have h2 : (0 : Nat) < maxPages := hpl
      obtain ⟨k, rfl⟩ : ∃ k, maxPages = k + 1 := ⟨maxPages - 1, by omega⟩
      have hs1 : k + 1 - (0 + 1) = k := by omega
      rw [hs1] at H
      have hmul : (k + 1) * pageSize = k * pageSize + pageSize := by ring
      rw [hmul]
      omega

/-- C4 witness: the end-of-sequence characterization at the freshly
constructed scenario iterator, and the length bound at the concrete source
(hypotheses discharged at concrete inputs). -/
theorem c4_witness :
    ((LazyState.init fetch5 1).next fetch5 1 = none ↔
      (LazyState.init fetch5 1).exhausted = true ∧
        (LazyState.init fetch5 1).positionInPage =
          (LazyState.init fetch5 1).currentResults.length) ∧
    (LazyState.run fetch5 1 10 (LazyState.init fetch5 1)).length ≤ 1 * 5 :=
  ⟨c4_lazy_end_of_sequence_and_bound.1 fetch5 1 _ LazyReachable.init,
   c4_lazy_end_of_sequence_and_bound.2.1 fetch5 1 5
     (fun p rs h => by
       injection h with h2
       subst h2
       decide) 10⟩

/-- C5: in every reachable state the in-page position lies in
[0, buffered-page length] and the page index never exceeds maxPages; when
`_load_next_page` runs with the page index at maxPages it only sets the
exhausted flag; a fetch that raises or returns zero records sets the
exhausted flag; a successful non-empty fetch installs the page and
increments the page index; and whenever `__next__` consumes the last
buffered item the successor state is produced by `_load_next_page`. -/
theorem c5_cursor_invariant_and_transitions :
    (∀ (fetch : Nat → Except String (List NormalizedRecord)) (maxPages : Nat)
        (s : LazyState), LazyReachable fetch maxPages s →
      s.positionInPage ≤ s.currentResults.length ∧ s.currentPage ≤ maxPages) ∧
    (∀ (fetch : Nat → Except String (List NormalizedRecord)) (maxPages : Nat)
        (s : LazyState), maxPages ≤ s.currentPage →
      s.load_next_page fetch maxPages = { s with exhausted := true }) ∧
    (∀ (fetch : Nat → Except String (List NormalizedRecord)) (maxPages : Nat)
        (s : LazyState) (e : String), s.currentPage < maxPages →
      fetch s.currentPage = .error e →
      s.load_next_page fetch maxPages = { s with exhausted := true }) ∧
    (∀ (fetch : Nat → Except String (List NormalizedRecord)) (maxPages : Nat)
        (s : LazyState), s.currentPage < maxPages →
      fetch s.currentPage = .ok [] →
      s.load_next_page fetch maxPages = { s with exhausted := true }) ∧
    (∀ (fetch : Nat → Except String (List NormalizedRecord)) (maxPages : Nat)
        (s : LazyState) (rs : List NormalizedRecord), s.currentPage < maxPages →
      fetch s.currentPage = .ok rs → rs ≠ [] →
      s.load_next_page fetch maxPages =
        { s with currentResults := rs, positionInPage := 0,
                 currentPage := s.currentPage + 1 }) ∧
    (∀ (fetch : Nat → Except String (List NormalizedRecord)) (maxPages : Nat)
        (s : LazyState) (r : NormalizedRecord) (s' : LazyState),
      s.next fetch maxPages = some (r, s') →
      s.currentResults.length ≤ s.positionInPage + 1 →
      s' = LazyState.load_next_page fetch maxPages
        { s with positionInPage := s.positionInPage + 1 }) := by
  refine ⟨?_, ?_, ?_, ?_, ?_, ?_⟩
  · intro fetch maxPages s hreach
    obtain ⟨h1, h2, h3⟩ := lazyInv_reachable fetch maxPages s hreach
    cases hexh : s.exhausted with
    | true => exact ⟨le_of_eq (h1 hexh), h3⟩
    | false => exact ⟨le_of_lt (h2 hexh), h3⟩
  · intro fetch maxPages s h
    exact load_next_page_of_maxPages fetch maxPages s h
  · intro fetch maxPages s e h hf
    exact load_next_page_of_error fetch maxPages s e h hf
  · intro fetch maxPages s h hf
    exact load_next_page_of_empty fetch maxPages s h hf
  · intro fetch maxPages s rs h hf hne
    exact load_next_page_of_ok fetch maxPages s rs h hf hne
  · intro fetch maxPages s r s' hn hend
    obtain ⟨_, hpos, _, hbranch⟩ := lazyNext_cases fetch maxPages s r s' hn
    rcases hbranch with ⟨_, hs⟩ | ⟨hlt, _⟩
    · exact hs
    · omega

/-- C5 witness: the invariant at the freshly constructed scenario iterator
and the maxPages transition at a concrete state. -/
theorem c5_witness :
    ((LazyState.init fetch5 1).positionInPage ≤
        (LazyState.init fetch5 1).currentResults.length ∧
      (LazyState.init fetch5 1).currentPage ≤ 1) ∧
    (⟨1, 5, page5, false⟩ : LazyState).load_next_page fetch5 1 =
      { (⟨1, 5, page5, false⟩ : LazyState) with exhausted := true } :=
  ⟨c5_cursor_invariant_and_transitions.1 fetch5 1 _ LazyReachable.init,
   c5_cursor_invariant_and_transitions.2.1 fetch5 1 ⟨1, 5, page5, false⟩
     (le_refl 1)⟩

/-- C6: `reset` rebuilds exactly the freshly constructed state — it zeroes
the page index, position and buffer, clears the exhausted flag and
re-triggers the first fetch — so a full consumption after `reset` replays
the original consumption verbatim (the fetch function, i.e. a stable source,
is deterministic by construction). -/
theorem c6_reset_restartability :
    (∀ (fetch : Nat → Except String (List NormalizedRecord)) (maxPages : Nat)
        (s : LazyState),
      s.reset fetch maxPages =
        LazyState.load_next_page fetch maxPages ⟨0, 0, [], false⟩) ∧
    (∀ (fetch : Nat → Except String (List NormalizedRecord)) (maxPages : Nat)
        (s : LazyState),
      s.reset fetch maxPages = LazyState.init fetch maxPages) ∧
    (∀ (fetch : Nat → Except String (List NormalizedRecord)) (maxPages : Nat)
        (s : LazyState) (fuel : Nat),
      LazyState.run fetch maxPages fuel (s.reset fetch maxPages) =
        LazyState.run fetch maxPages fuel (LazyState.init fetch maxPages)) :=
  ⟨fun _ _ _ => rfl, fun _ _ _ => rfl, fun _ _ _ _ => rfl⟩

/-- C7 counterexample: for an Open Library document listing the hyphenated
10-digit identifier "0-451-52493-4" (13 characters) before the plain
13-digit identifier "9780451524935", the adapter stores the 10-digit isbn
"0451524934" although a 13-digit identifier is present; and for a Google
Books item whose identifier uses spaces, the space (a non-digit separator)
is not stripped before storage. -/
theorem c7_counterexample_isbn_policy :
    (OpenLibraryAdapter.normalize_to_standard_format olDocBothIsbns).toOption.map
        (fun r => r.isbn) = some (some "0451524934") ∧
    (GoogleBooksAdapter.normalize_to_standard_format googleSpaceIsbn).isbn =
      some "978 0132350884" ∧
    (¬ ("978 0132350884".data.all Char.isDigit = true)) := by
  exact ⟨by decide, by decide, by decide⟩

/-- C7 amended: Google Books stores the first ISBN_13-typed identifier,
falling back to the first ISBN_10-typed one, and yields an absent isbn when
identifiers are absent; Open Library stores the first longest identifier
string — which is a 13-digit identifier whenever all identifiers are plain
digit strings of length at most 13 and one of length 13 is present — and
yields an absent isbn when the identifier list is absent or empty; only
hyphens (not arbitrary separators) are stripped; a missing author list
yields an empty authors list for both adapters. -/
theorem c7_amended_isbn_and_authors :
    (∀ (apiData : GoogleApiData),
      (apiData.volumeInfo.getD emptyVolumeInfo).industryIdentifiers.getD [] = [] →
      (GoogleBooksAdapter.normalize_to_standard_format apiData).isbn = none) ∧
    (∀ (apiData : GoogleApiData) (i : GoogleIndustryIdentifier),
      ((apiData.volumeInfo.getD emptyVolumeInfo).industryIdentifiers.getD []).find?
          (fun x => x.idType == some "ISBN_13") = some i →
      (GoogleBooksAdapter.normalize_to_standard_format apiData).isbn =
        some (removeHyphens (i.identifier.getD ""))) ∧
    (∀ (apiData : GoogleApiData) (i : GoogleIndustryIdentifier),
      ((apiData.volumeInfo.getD emptyVolumeInfo).industryIdentifiers.getD []).find?
          (fun x => x.idType == some "ISBN_13") = none →
      ((apiData.volumeInfo.getD emptyVolumeInfo).industryIdentifiers.getD []).find?
          (fun x => x.idType == some "ISBN_10") = some i →
      (GoogleBooksAdapter.normalize_to_standard_format apiData).isbn =
        some (removeHyphens (i.identifier.getD ""))) ∧
    (∀ (apiData : GoogleApiData),
      (apiData.volumeInfo.getD emptyVolumeInfo).authors = none →
      (GoogleBooksAdapter.normalize_to_standard_format apiData).authors = []) ∧
    (∀ (doc : OpenLibraryDoc) (r : NormalizedRecord),
      OpenLibraryAdapter.normalize_to_standard_format doc = .ok r →
      (doc.isbn = none ∨ doc.isbn = some []) → r.isbn = none) ∧
    (∀ (doc : OpenLibraryDoc) (r : NormalizedRecord) (x : String)
        (xs : List String),
      OpenLibraryAdapter.normalize_to_standard_format doc = .ok r →
      doc.isbn = some (x :: xs) →
      r.isbn = some (removeHyphens (maxByLen x xs)) ∧
      ((∀ s ∈ x :: xs, s.data.all Char.isDigit = true ∧ s.length ≤ 13) →
       (∃ s ∈ x :: xs, s.length = 13) →
       r.isbn = some (maxByLen x xs) ∧ (maxByLen x xs).length = 13 ∧
         maxByLen x xs ∈ x :: xs)) ∧
    (∀ (doc : OpenLibraryDoc) (r : NormalizedRecord),
      OpenLibraryAdapter.normalize_to_standard_format doc = .ok r →
      doc.author_name = none → doc.authors = none → r.authors = []) := by
  refine ⟨?_, ?_, ?_, ?_, ?_, ?_, ?_⟩
  · intro apiData h
    unfold GoogleBooksAdapter.normalize_to_standard_format
    dsimp only
    rw [h]
    simp [List.find?]
  · intro apiData i h
    unfold GoogleBooksAdapter.normalize_to_standard_format
    dsimp only
    rw [h]
  · intro apiData i h13 h10
    unfold GoogleBooksAdapter.normalize_to_standard_format
    dsimp only
    rw [h13, h10]
  · intro apiData h
    unfold GoogleBooksAdapter.normalize_to_standard_format
    dsimp only
    rw [h]
    rfl
  · intro doc r hok hi
    have h := (ol_normalize_ok doc r hok).1
    rcases hi with hi | hi <;> rw [hi] at h <;> exact h
  · intro doc r x xs hok hi
    have h0 := (ol_normalize_ok doc r hok).1
    rw [hi] at h0
    have h : r.isbn = some (removeHyphens (maxByLen x xs)) := h0
    refine ⟨h, ?_⟩
    intro hdig h13
    have hmem : maxByLen x xs ∈ x :: xs := maxByLen_mem xs x
    have hd : (maxByLen x xs).data.all Char.isDigit = true := (hdig _ hmem).1
    have hle : (maxByLen x xs).length ≤ 13 := (hdig _ hmem).2
    obtain ⟨s, hs, hs13⟩ := h13
    have hge : 13 ≤ (maxByLen x xs).length := hs13 ▸ maxByLen_ge xs x s hs
    have hlen : (maxByLen x xs).length = 13 := le_antisymm hle hge
    rw [removeHyphens_of_digits _ hd] at h
    exact ⟨h, hlen, hmem⟩
  · intro doc r hok h1 h2
    have h := (ol_normalize_ok doc r hok).2
    rw [h1, h2] at h
    exact h

/-- C7 amended witness: the Google ISBN_13 preference and the Open Library
digit-string case at concrete payloads (hypotheses discharged by
computation). -/
theorem c7_amended_witness :
    (GoogleBooksAdapter.normalize_to_standard_format
        ⟨some { emptyVolumeInfo with
            industryIdentifiers := some
              [⟨some "ISBN_10", some "0132350882"⟩,
               ⟨some "ISBN_13", some "978-0132350884"⟩] }⟩).isbn =
      some (removeHyphens (some "978-0132350884" |>.getD "")) ∧
    ((OpenLibraryAdapter.normalize_to_standard_format
        { olDocBothIsbns with isbn := some ["0451524934", "9780451524935"] }).toOption.map
      (fun r => r.isbn) = some (some "9780451524935")) :=
  ⟨c7_amended_isbn_and_authors.2.1
      ⟨some { emptyVolumeInfo with
          industryIdentifiers := some
            [⟨some "ISBN_10", some "0132350882"⟩,
             ⟨some "ISBN_13", some "978-0132350884"⟩] }⟩
      ⟨some "ISBN_13", some "978-0132350884"⟩ (by decide),
   by decide⟩

/-- C9 (code evaluated at the failing input): the empty-title record fails
construction and is skipped as the claim says, but the subsequent valid
record — the repository's own test fixture — also fails construction,
because `BookBuilder.build` passes the always-present `language` and
`source` keys (and more) to `Book(**data)` although the `Book` model
declares no such fields, so Django raises `TypeError`; `build_all`
therefore materializes nothing. -/
theorem c9_valid_record_not_materialized :
    BookDirector.construct_from_adapter emptyTitleRec "google_books" [] =
      .error "Dados normalizados sem título" ∧
    BookDirector.construct_from_adapter validRec1 "google_books" [] =
      .error "TypeError: invalid keyword argument for Book" ∧
    IteratorBookBuilder.build_all false [emptyTitleRec, validRec1] [] =
      ([], []) := by
  exact ⟨by decide, by decide, by decide⟩

/-- C10 (code evaluated at the failing input): materializing the same valid
record twice with skipExisting on yields zero persisted entities, not
exactly one — every construction dies in `Book(**data)` with a `TypeError`
on the builder-only keys, so nothing is ever persisted. -/
theorem c10_idempotence_vacuously_broken :
    IteratorBookBuilder.build_all true [validRec1] [] = ([], []) ∧
    IteratorBookBuilder.build_all true [validRec1, validRec1] [] = ([], []) := by
  exact ⟨by decide, by decide⟩

